import Mathlib

/-!
# Verification of `boltons/cacheutils.py`

A shallow embedding of the two cache classes in `src/boltons/cacheutils.py`:

* `LRU` — a `dict` subclass holding a circular doubly linked list of links
  `[PREV, NEXT, KEY, RESULT]` threaded through an arena, with a sentinel
  `root` link.  The Python links are heap objects mutated in place; here the
  arena is a `List` of nodes addressed by stable integer ids, and every
  in-place field assignment of the source becomes a `List.set` at that id.
* `BasicCache` — a `dict` subclass with an `on_miss` callback and a FIFO
  deque `_queue` of inserted keys.

Python `dict`s are modelled as association lists with unique keys
(`insertA` replaces in place, `removeA` deletes); `KeyError` is modelled by
`Except`.  A link field holding Python `None` is `Option.none`.
-/

section AssocList

variable {α : Type} {γ : Type} [DecidableEq α]

/-- Python `dict` lookup on an association list. -/
def lookupA (d : List (α × γ)) (k : α) : Option γ :=
  match d with
  | [] => none
  | (k', v') :: rest => if k = k' then some v' else lookupA rest k

/-- Python `dict.__setitem__`: replace the binding if the key is present,
otherwise append it. -/
def insertA (d : List (α × γ)) (k : α) (v : γ) : List (α × γ) :=
  match d with
  | [] => [(k, v)]
  | (k', v') :: rest => if k = k' then (k, v) :: rest else (k', v') :: insertA rest k v

/-- Python `dict.__delitem__` on a present key: drop the binding. -/
def removeA (d : List (α × γ)) (k : α) : List (α × γ) :=
  match d with
  | [] => []
  | (k', v') :: rest => if k = k' then rest else (k', v') :: removeA rest k

/-- The key list of an association list. -/
def keysA (d : List (α × γ)) : List α := d.map Prod.fst

/-- Python `dict` equality: same length and every binding of the left dict
present in the right one (with unique keys this is exactly "same items"). -/
def dictEq [DecidableEq γ] (d1 d2 : List (α × γ)) : Bool :=
  d1.length == d2.length && d1.all (fun p => lookupA d2 p.1 == some p.2)

/-- Two association lists bind every key identically ("same set of
key-to-value pairs" for unique-key lists). -/
def samePairs (d1 d2 : List (α × γ)) : Prop :=
  ∀ k, lookupA d1 k = lookupA d2 k

end AssocList


section LRUModel

/-- One Python link `[PREV, NEXT, KEY, RESULT]` (`cacheutils.py` line 54).
`prev`/`next` are arena ids; `key`/`result` are `none` when the link holds
Python `None` (as the sentinel does). -/
structure Node (α β : Type) where
  prev : Nat
  next : Nat
  key : Option α
  result : Option β
deriving DecidableEq

/-- Placeholder used by total arena reads; never reached on states built by
the operations. -/
def dummyNode {α β : Type} : Node α β := ⟨0, 0, none, none⟩

/-- The state of an `LRU` instance (`LRU.__init__`): the `dict` part
(`index`, key → link id), the arena of link objects, `self.root`'s id,
`max_size`, and the three counters.  The reentrant lock guards no
concurrency in this sequential model and is omitted. -/
structure LRUState (α β : Type) where
  arena : List (Node α β)
  root : Nat
  index : List (α × Nat)
  maxSize : Nat
  hitCount : Nat
  missCount : Nat
  softMissCount : Nat
deriving DecidableEq

variable {α β : Type} [DecidableEq α] [DecidableEq β]

/-- Mutate one field of the link object at id `i` (a Python `link[F] = x`). -/
def setNode (arena : List (Node α β)) (i : Nat) (f : Node α β → Node α β) :
    List (Node α β) :=
  arena.set i (f (arena.getD i dummyNode))

/-- `LRU.__init__` without initial values: counters zero and a self-linked
sentinel `root = [root, root, None, None]` at arena id 0. -/
def initLRU (maxSize : Nat) : LRUState α β :=
  { arena := [⟨0, 0, none, none⟩], root := 0, index := [], maxSize := maxSize,
    hitCount := 0, missCount := 0, softMissCount := 0 }

/-- `LRU.__setitem__`.  Faithful to the source, including:
* no already-present check (a re-set key leaves its old link in the list);
* in the at-capacity branch the rebinding `root = oldroot[NEXT]` only
  changes the local variable, so the state's `root` field is NOT updated;
* `super().__delitem__(oldkey)` raises `KeyError` (here `.error ()`) when
  `oldkey` is not a key of the dict — in particular when it is `None`. -/
def setItem (s : LRUState α β) (key : α) (value : β) :
    Except Unit (LRUState α β) :=
  let root := s.root
  if s.index.length < s.maxSize then
    -- last = root[PREV]; link = [last, root, key, value]
    let last := (s.arena.getD root dummyNode).prev
    let i := s.arena.length
    let a1 := s.arena ++ [⟨last, root, some key, some value⟩]
    -- last[NEXT] = root[PREV] = link
    let a2 := setNode a1 last (fun n => { n with next := i })
    let a3 := setNode a2 root (fun n => { n with prev := i })
    .ok { s with arena := a3, index := insertA s.index key i }
  else
    -- oldroot[KEY] = key; oldroot[RESULT] = value
    let oldroot := root
    let a1 := setNode s.arena oldroot
      (fun n => { n with key := some key, result := some value })
    -- root = oldroot[NEXT]  (local rebinding only!)
    let newroot := (a1.getD oldroot dummyNode).next
    let oldkey := (a1.getD newroot dummyNode).key
    -- root[KEY] = root[RESULT] = None
    let a2 := setNode a1 newroot (fun n => { n with key := none, result := none })
    match oldkey with
    | none => .error ()
    | some k =>
      if (lookupA s.index k).isSome then
        .ok { s with arena := a2,
                     index := insertA (removeA s.index k) key oldroot }
      else .error ()

/-- `LRU.__getitem__`: on a miss increment `miss_count` and raise; on a hit
splice the link out and relink it in front of the sentinel, increment
`hit_count`, and return the link's `RESULT` field. -/
def getItem (s : LRUState α β) (key : α) :
    Except Unit (Option β) × LRUState α β :=
  match lookupA s.index key with
  | none => (.error (), { s with missCount := s.missCount + 1 })
  | some i =>
    let root := s.root
    let node := s.arena.getD i dummyNode
    let lp := node.prev
    let ln := node.next
    -- link_prev[NEXT] = link_next; link_next[PREV] = link_prev
    let a1 := setNode s.arena lp (fun n => { n with next := ln })
    let a2 := setNode a1 ln (fun n => { n with prev := lp })
    -- last = root[PREV]; last[NEXT] = root[PREV] = link
    let last := (a2.getD root dummyNode).prev
    let a3 := setNode a2 last (fun n => { n with next := i })
    let a4 := setNode a3 root (fun n => { n with prev := i })
    -- link[PREV] = last; link[NEXT] = root
    let a5 := setNode a4 i (fun n => { n with prev := last })
    let a6 := setNode a5 i (fun n => { n with next := root })
    (.ok node.result, { s with arena := a6, hitCount := s.hitCount + 1 })

/-- `LRU.get(key, default)`: try `self[key]`; on `KeyError` increment
`soft_miss_count` and return the default (miss_count was already bumped by
`__getitem__` before re-raising). -/
def getLRU (s : LRUState α β) (key : α) (default : Option β) :
    Option β × LRUState α β :=
  match getItem s key with
  | (.ok v, s') => (v, s')
  | (.error _, s') => (default, { s' with softMissCount := s'.softMissCount + 1 })

/-- The state part of `n` repeated `LRU.get` calls with the same arguments. -/
def getNLRU (n : Nat) (s : LRUState α β) (key : α) (default : Option β) :
    LRUState α β :=
  match n with
  | 0 => s
  | m + 1 => getNLRU m (getLRU s key default).2 key default

/-- The inherited `dict.__delitem__` (`cacheutils.py` line 58 lists it as
inherited): removes the key from the dict only — the link objects are not
touched — and raises `KeyError` on an absent key. -/
def delItem (s : LRUState α β) (key : α) : Except Unit (LRUState α β) :=
  if (lookupA s.index key).isSome then
    .ok { s with index := removeA s.index key }
  else .error ()

/-- `LRU._get_value_map()`: `{k: link[RESULT] for k, link in self.items()}`. -/
def valueMap (s : LRUState α β) : List (α × Option β) :=
  s.index.map (fun ki => (ki.1, (s.arena.getD ki.2 dummyNode).result))

/-- `LRU.__eq__(self, other)` dispatched on a plain mapping `other` (and
also the inner comparison `other == self._get_value_map()` bottoms out
here): length check, then Python dict equality against the value map. -/
def eqLRUDict (s : LRUState α β) (d : List (α × Option β)) : Bool :=
  if d.length ≠ s.index.length then false else dictEq d (valueMap s)

/-- `s1 == s2` for two distinct `LRU` instances: `LRU.__eq__(s1, s2)` does
the length check then evaluates `s2 == s1._get_value_map()`, which invokes
`LRU.__eq__(s2, valueMap s1)`. -/
def eqLRU (s1 s2 : LRUState α β) : Bool :=
  if s2.index.length ≠ s1.index.length then false
  else eqLRUDict s2 (valueMap s1)

/-- `LRU(max_size, values=...)` with a mapping argument: `__init__` runs
`self.update(values)`, whose mapping branch sets each key in turn. -/
def mkLRU (maxSize : Nat) (values : List (α × β)) :
    Except Unit (LRUState α β) :=
  values.foldlM (fun s kv => setItem s kv.1 kv.2) (initLRU maxSize)

/-- Walk the circular list from the link after `start` for at most `fuel`
steps, collecting ids until the sentinel `root` comes around again. -/
def walkNext (arena : List (Node α β)) (root : Nat) :
    Nat → Nat → List Nat
  | 0, _ => []
  | fuel + 1, i =>
    if i = root then []
    else i :: walkNext arena root fuel (arena.getD i dummyNode).next

/-- The ids of the non-sentinel links of the circular list, read by
following `NEXT` pointers from `root`. -/
def liveNodes (s : LRUState α β) : List Nat :=
  walkNext s.arena s.root s.arena.length
    ((s.arena.getD s.root dummyNode).next)

/-- Unwrap a cache construction that is known to succeed. -/
def getOk (e : Except Unit (LRUState α β)) : LRUState α β :=
  match e with
  | .ok s => s
  | .error _ => initLRU 0

end LRUModel

section BasicCacheModel

/-- Errors escaping a `BasicCache` lookup: a `KeyError` from `del`, or an
exception raised by the user's `on_miss` callback. -/
inductive BCErr (ε : Type) where
  | keyError : BCErr ε
  | onMissFail : ε → BCErr ε
deriving DecidableEq

/-- The state of a `BasicCache(size, on_miss)` instance: the `dict` part,
the `_queue` deque (front = oldest inserted), and `size`. -/
structure BCState (α β : Type) where
  store : List (α × β)
  queue : List α
  size : Nat
deriving DecidableEq

variable {α β ε : Type} [DecidableEq α]

/-- `BasicCache.__missing__`: compute `on_miss(key)` (its exceptions
propagate before any mutation), store the result, append the key to the
queue, and when the queue overflows pop the oldest key and delete it. -/
def bcMissing (onMiss : α → Except ε β) (s : BCState α β) (key : α) :
    Except (BCErr ε) β × BCState α β :=
  match onMiss key with
  | .error e => (.error (.onMissFail e), s)
  | .ok ret =>
    let store1 := insertA s.store key ret
    let q1 := s.queue ++ [key]
    if q1.length > s.size then
      match q1 with
      | [] => (.error .keyError, s)  -- unreachable: q1 ends in key
      | old :: rest =>
        if (lookupA store1 old).isSome then
          (.ok ret, { s with store := removeA store1 old, queue := rest })
        else
          (.error .keyError, { s with store := store1, queue := rest })
    else
      (.ok ret, { s with store := store1, queue := q1 })

/-- `cache[key]` on a `BasicCache`: the plain `dict` lookup, falling back to
`__missing__` when the key is absent. -/
def bcGet (onMiss : α → Except ε β) (s : BCState α β) (key : α) :
    Except (BCErr ε) β × BCState α β :=
  match lookupA s.store key with
  | some v => (.ok v, s)
  | none => bcMissing onMiss s key

end BasicCacheModel

section ClaimRuns

/-- C1 run: `LRU(max_size=1)` fed three distinct keys — the third `set`
needs a second eviction.  (Keys/values are the Nats 1↦10, 2↦20, 3↦30.) -/
def c1run : Except Unit (LRUState Nat Nat) := do
  let s1 ← setItem (initLRU 1) 1 10
  let s2 ← setItem s1 2 20
  setItem s2 3 30

/-- The first two sets of the C1 run (one eviction only). -/
def c1twoSets : Except Unit (LRUState Nat Nat) := do
  let s1 ← setItem (initLRU 1) 1 10
  setItem s1 2 20

/-- C2 run: `LRU(2)` with the same key set twice (`lru[7]=1; lru[7]=2`). -/
def c2run : Except Unit (LRUState Nat Nat) := do
  let s1 ← setItem (initLRU 2) 7 1
  setItem s1 7 2

/-- C3 run: `LRU(2)`; `set(a,1)`; `set(b,2)`; `get(a)`; `set(c,3)`, with
`a,b,c` the keys `1,2,3`.  Returns the value `get(a)` produced and the
final state. -/
def c3run : Except Unit (Option Nat × LRUState Nat Nat) := do
  let s1 ← setItem (initLRU 2) 1 1
  let s2 ← setItem s1 2 2
  let p := getItem s2 1
  let r ← p.1
  let s4 ← setItem p.2 3 3
  pure (r, s4)

/-- C6 run: `LRU(2)`; `lru[5] = 1`; `del lru[5]`. -/
def c6run : Except Unit (LRUState Nat Nat) := do
  let s1 ← setItem (initLRU 2) 5 1
  delItem s1 5

/-- The `upper` callback of the C4 scenario (never raises). -/
def upMiss : Char → Except Unit Char := fun c => .ok c.toUpper

/-- C4 scenario `BasicCache(2, upper)`: the four successive `get`s. -/
def c4r1 : Except (BCErr Unit) Char × BCState Char Char :=
  bcGet upMiss ⟨[], [], 2⟩ 'a'

def c4r2 : Except (BCErr Unit) Char × BCState Char Char :=
  bcGet upMiss c4r1.2 'b'

def c4r3 : Except (BCErr Unit) Char × BCState Char Char :=
  bcGet upMiss c4r2.2 'a'

def c4r4 : Except (BCErr Unit) Char × BCState Char Char :=
  bcGet upMiss c4r3.2 'c'

/-- `LRUCache(3, {a: 1})` with `a` the key 1 (spec §8 equality example). -/
def lru3 : LRUState Nat Nat := getOk (mkLRU 3 [(1, 1)])

/-- `LRUCache(10, {a: 1})` with `a` the key 1 (spec §8 equality example). -/
def lru10 : LRUState Nat Nat := getOk (mkLRU 10 [(1, 1)])

end ClaimRuns

section AssocLemmas

variable {α : Type} {γ : Type} [DecidableEq α]

theorem lookupA_eq_none_iff (d : List (α × γ)) (k : α) :
    lookupA d k = none ↔ k ∉ keysA d := by
  induction d with
  | nil => simp [lookupA, keysA]
  | cons p rest ih =>
    obtain ⟨k', v'⟩ := p
    by_cases h : k = k'
    · simp [lookupA, keysA, h]
    · simp [lookupA, keysA, h] at ih ⊢
      simpa [keysA] using ih

theorem mem_of_lookupA_eq_some {d : List (α × γ)} {k : α} {v : γ}
    (h : lookupA d k = some v) : (k, v) ∈ d := by
  induction d with
  | nil => simp [lookupA] at h
  | cons p rest ih =>
    obtain ⟨k', v'⟩ := p
    by_cases hk : k = k'
    · subst hk
      simp [lookupA] at h
      simp [h]
    · simp [lookupA, hk] at h
      simp [ih h]

theorem lookupA_eq_some_of_mem {d : List (α × γ)} {k : α} {v : γ}
    (hn : (keysA d).Nodup) (h : (k, v) ∈ d) : lookupA d k = some v := by
  induction d with
  | nil => simp at h
  | cons p rest ih =>
    obtain ⟨k', v'⟩ := p
    simp [keysA] at hn
    rcases List.mem_cons.mp h with h1 | h1
    · rw [Prod.mk.injEq] at h1
      obtain ⟨hk, hv⟩ := h1
      subst hk; subst hv
      simp [lookupA]
    · have hkne : k ≠ k' := fun hk => hn.1 v (hk ▸ h1)
      simp [lookupA, hkne]
      exact ih hn.2 h1

theorem mem_keysA_of_lookupA {d : List (α × γ)} {k : α} {v : γ}
    (h : lookupA d k = some v) : k ∈ keysA d := by
  by_contra hk
  rw [← lookupA_eq_none_iff] at hk
  simp [hk] at h

/-- Python dict equality agrees with extensional binding equality on
unique-key association lists. -/
theorem dictEq_iff [DecidableEq γ] (d1 d2 : List (α × γ))
    (h1 : (keysA d1).Nodup) (h2 : (keysA d2).Nodup) :
    dictEq d1 d2 = true ↔ samePairs d1 d2 := by
  constructor
  · intro h
    simp [dictEq, List.all_eq_true] at h
    obtain ⟨hlen, hall⟩ := h
    have hsub : keysA d1 ⊆ keysA d2 := by
      intro k hk
      rcases List.mem_map.mp hk with ⟨⟨k0, v0⟩, hp, hpk⟩
      cases hpk
      exact mem_keysA_of_lookupA (hall k0 v0 hp)
    have hperm : List.Perm (keysA d1) (keysA d2) := by
      refine (List.subperm_of_subset h1 hsub).perm_of_length_le ?_
      simp [keysA, hlen]
    intro k
    cases hc : lookupA d1 k with
    | some v =>
      rw [hall k v (mem_of_lookupA_eq_some hc)]
    | none =>
      have hk1 : k ∉ keysA d1 := (lookupA_eq_none_iff d1 k).mp hc
      have hk2 : k ∉ keysA d2 := fun hh => hk1 (hperm.mem_iff.mpr hh)
      rw [(lookupA_eq_none_iff d2 k).mpr hk2]
  · intro hs
    have hsub1 : keysA d1 ⊆ keysA d2 := by
      intro k hk
      rcases List.mem_map.mp hk with ⟨⟨k0, v0⟩, hp, hpk⟩
      cases hpk
      have hl := lookupA_eq_some_of_mem h1 hp
      exact mem_keysA_of_lookupA (hs k0 ▸ hl)
    have hsub2 : keysA d2 ⊆ keysA d1 := by
      intro k hk
      rcases List.mem_map.mp hk with ⟨⟨k0, v0⟩, hp, hpk⟩
      cases hpk
      have hl := lookupA_eq_some_of_mem h2 hp
      exact mem_keysA_of_lookupA ((hs k0).symm ▸ hl)
    have hperm : List.Perm (keysA d1) (keysA d2) :=
      (List.subperm_of_subset h1 hsub1).antisymm (List.subperm_of_subset h2 hsub2)
    have hlen : d1.length = d2.length := by
      have hkl := hperm.length_eq
      simpa [keysA] using hkl
    simp [dictEq, List.all_eq_true, hlen]
    intro k v hp
    exact (hs k) ▸ lookupA_eq_some_of_mem h1 hp
end AssocLemmas

section SupportLemmas

variable {α β : Type}

theorem keysA_valueMap (s : LRUState α β) :
    keysA (valueMap s) = keysA s.index := by
  simp [keysA, valueMap]

theorem length_valueMap (s : LRUState α β) :
    (valueMap s).length = s.index.length := by
  simp [valueMap]

/-- Iterating `LRU.get` on a key absent from the index only accumulates the
two miss counters. -/
theorem getNLRU_absent [DecidableEq α] (k : α) (d : β) :
    ∀ (n : Nat) (s : LRUState α β), lookupA s.index k = none →
      getNLRU n s k (some d) =
        { s with missCount := s.missCount + n,
                 softMissCount := s.softMissCount + n }
  | 0, s, _ => by simp [getNLRU]
  | n + 1, s, h => by
    have h1 : getLRU s k (some d) =
        (some d, { s with missCount := s.missCount + 1,
                          softMissCount := s.softMissCount + 1 }) := by
      simp [getLRU, getItem, h]
    rw [getNLRU, h1]
    have h2 := getNLRU_absent k d n
      { s with missCount := s.missCount + 1,
               softMissCount := s.softMissCount + 1 } (by simpa using h)
    rw [h2]
    have e1 : s.missCount + 1 + n = s.missCount + (n + 1) := by omega
    have e2 : s.softMissCount + 1 + n = s.softMissCount + (n + 1) := by omega
    simp [e1, e2]

end SupportLemmas

section ClaimTheorems

variable {α β ε : Type} [DecidableEq α] [DecidableEq β]

/-- C1: the claim says every `set` on a positive-capacity `LRU` completes
without raising, even across two or more evictions.  The code violates it:
`__setitem__`'s eviction branch rebinds only the local variable `root`, so
`self.root` still points at the link just repurposed; the next eviction
reads the true sentinel's `KEY` (`None`) as `oldkey` and
`super().__delitem__(None)` raises `KeyError`.  Here: `LRU(max_size=1)`
accepts two distinct keys (one eviction) but raises on the third. -/
theorem lru_third_set_raises :
    c1run = .error () ∧ (c1twoSets.map fun s => s.index.length) = .ok 1 :=
  ⟨rfl, rfl⟩

/-- C2: the claim says `len(index)` always equals the number of
non-sentinel links in the circular list, in particular after `set` on an
already-present key.  The code violates it: re-setting key 7 in `LRU(2)`
appends a fresh link while the stale one stays spliced in, so the dict has
1 key but the list holds 2 non-sentinel links. -/
theorem lru_reset_breaks_invariant :
    (c2run.map fun s => (s.index.length, (liveNodes s).length)) = .ok (1, 2) :=
  rfl

/-- C3: `LRU(2)`; `set(a,1)`; `set(b,2)`; `get(a)` returns 1 and promotes
`a`; `set(c,3)` evicts exactly `b`, leaving `{a: 1, c: 3}` (keys `a,b,c`
are `1,2,3`). -/
theorem lru_recency_eviction :
    (c3run.map fun rs =>
      (rs.1, lookupA (valueMap rs.2) 1, lookupA (valueMap rs.2) 2,
       lookupA (valueMap rs.2) 3, rs.2.index.length))
    = .ok (some 1, some (some 1), none, some (some 3), 2) :=
  rfl

/-- C4: `BasicCache(2, upper)`: the four gets return `'A','B','A','C'`; the
third is a pure hit leaving the whole state unchanged; the fourth evicts
`'a'` (earliest inserted) leaving exactly the keys `{'b','c'}` with queue
`['b','c']`. -/
theorem bc_fifo_eviction :
    c4r1.1 = .ok 'A' ∧ c4r2.1 = .ok 'B' ∧ c4r3.1 = .ok 'A' ∧ c4r3.2 = c4r2.2
    ∧ c4r4.1 = .ok 'C' ∧ c4r4.2.store = [('b', 'B'), ('c', 'C')]
    ∧ c4r4.2.queue = ['b', 'c'] :=
  ⟨rfl, rfl, rfl, rfl, rfl, rfl, rfl⟩

end ClaimTheorems

section ClaimTheoremsTwo

variable {α β ε : Type} [DecidableEq α]

/-- C5 counterexample: the claim says `get`-with-default on an absent key
leaves `missCount` unchanged; on an empty `LRU(2)` a single defaulted `get`
of the absent key 9 changes `missCount` (0 becomes 1), because `LRU.get`
delegates to `__getitem__`, which bumps `miss_count` before re-raising. -/
theorem lru_get_absent_changes_missCount :
    ¬ ((getLRU (initLRU 2 : LRUState Nat Nat) 9 (some 7)).2.missCount
        = (initLRU 2 : LRUState Nat Nat).missCount) := by
  decide

/-- C5 (amended): `get(key, default)` on an absent key returns the default
and leaves everything unchanged except that `softMissCount` AND `missCount`
each grow by exactly 1 per call (`hitCount`, contents, capacity
untouched); iterating the call `n` times grows both counters by `n`. -/
theorem lru_get_absent_frame (s : LRUState α β) (k : α) (d : β)
    (h : lookupA s.index k = none) :
    getLRU s k (some d) =
      (some d, { s with missCount := s.missCount + 1,
                        softMissCount := s.softMissCount + 1 })
    ∧ ∀ n : Nat, getNLRU n s k (some d) =
        { s with missCount := s.missCount + n,
                 softMissCount := s.softMissCount + n } :=
  ⟨by simp [getLRU, getItem, h], fun n => getNLRU_absent k d n s h⟩

/-- C5 witness: the amended frame property evaluated on an empty `LRU(2)`
at absent key 9 with default 7. -/
theorem lru_get_absent_frame_witness :
    getLRU (initLRU 2 : LRUState Nat Nat) 9 (some 7) =
      (some 7, { (initLRU 2 : LRUState Nat Nat) with
                   missCount := 1, softMissCount := 1 }) :=
  (lru_get_absent_frame (initLRU 2) 9 7 rfl).1

/-- C6: the claim says `delete` unlinks the key's node from the circular
list.  The code violates it: `__delitem__` is the one inherited from
`dict`, so after `LRU(2)`; `lru[5]=1`; `del lru[5]` the dict is empty but
the node (id 1, still carrying key 5) is still reachable from the
sentinel; the Not-Found half (delete of the absent key 9 raises) does
hold. -/
theorem lru_delete_leaves_node_linked :
    (c6run.map fun s =>
      (s.index.length, liveNodes s, (s.arena.getD 1 dummyNode).key))
      = .ok (0, [1], some 5)
    ∧ (c6run.bind fun s => delItem s 9) = .error () :=
  ⟨rfl, rfl⟩

/-- C7: two `LRU` instances (with unique dict keys, as Python dicts
guarantee) compare equal exactly when their value maps bind the same
key-to-value pairs — capacity, recency order and all counters are free. -/
theorem lru_eq_iff_same_pairs [DecidableEq β] (s1 s2 : LRUState α β)
    (h1 : (keysA s1.index).Nodup) (h2 : (keysA s2.index).Nodup) :
    eqLRU s1 s2 = true ↔ samePairs (valueMap s1) (valueMap s2) := by
  have hv1 : (keysA (valueMap s1)).Nodup := by rw [keysA_valueMap]; exact h1
  have hv2 : (keysA (valueMap s2)).Nodup := by rw [keysA_valueMap]; exact h2
  have hd := dictEq_iff (valueMap s1) (valueMap s2) hv1 hv2
  constructor
  · intro h
    simp [eqLRU, eqLRUDict] at h
    exact hd.mp h.2.2
  · intro hs
    have hdq := hd.mpr hs
    have hlen : (valueMap s1).length = (valueMap s2).length := by
      simp [dictEq] at hdq
      exact hdq.1
    have hidx : s2.index.length = s1.index.length := by
      rw [← length_valueMap, ← length_valueMap, hlen]
    simp [eqLRU, eqLRUDict, hidx, length_valueMap, hdq]

/-- C7 witness: `LRUCache(3, {a: 1})` and `LRUCache(10, {a: 1})` compare
equal. -/
theorem lru_eq_iff_same_pairs_witness : eqLRU lru3 lru10 = true :=
  (lru_eq_iff_same_pairs lru3 lru10 (by decide) (by decide)).mpr
    (fun k => rfl)

/-- C8: when `on_miss` raises during population of an absent key, the
exception propagates unmodified and the cache state (store and queue) is
exactly what it was — `__missing__` runs `on_miss` before any mutation. -/
theorem bc_onmiss_failure_no_partial_state (onMiss : α → Except ε β)
    (s : BCState α β) (key : α) (e : ε)
    (h1 : onMiss key = .error e) (h2 : lookupA s.store key = none) :
    bcGet onMiss s key = (.error (.onMissFail e), s) := by
  simp [bcGet, bcMissing, h1, h2]

/-- C8 witness: a callback that raises `3` on the absent key 2 leaves the
one-entry cache exactly as it was. -/
theorem bc_onmiss_failure_no_partial_state_witness :
    bcGet (fun _ : Nat => (.error 3 : Except Nat Nat))
        (⟨[(1, 5)], [1], 2⟩ : BCState Nat Nat) 2
      = (.error (.onMissFail 3), (⟨[(1, 5)], [1], 2⟩ : BCState Nat Nat)) :=
  bc_onmiss_failure_no_partial_state _ _ 2 3 rfl rfl

/-- C9: on a `BasicCache` of size 0 (hence empty store and queue), looking
up any key invokes `on_miss`, returns its result without failing, and
leaves the cache empty again — the fresh entry is immediately evicted. -/
theorem bc_size_zero_lookup (f : α → β) (key : α) :
    bcGet (fun k => (.ok (f k) : Except Unit β)) (⟨[], [], 0⟩ : BCState α β) key
      = (.ok (f key), (⟨[], [], 0⟩ : BCState α β)) := by
  simp [bcGet, bcMissing, lookupA, insertA, removeA]

/-- C10: an `LRU` compares equal to a plain mapping (both with unique
keys) exactly when the mapping has the cache's dict length and binds the
same pairs as the cache's value map; differing lengths force inequality. -/
theorem lru_eq_dict_iff [DecidableEq β] (s : LRUState α β) (d : List (α × Option β))
    (h1 : (keysA s.index).Nodup) (h2 : (keysA d).Nodup) :
    eqLRUDict s d = true ↔
      (d.length = s.index.length ∧ samePairs d (valueMap s)) := by
  have hv : (keysA (valueMap s)).Nodup := by rw [keysA_valueMap]; exact h1
  have hd := dictEq_iff d (valueMap s) h2 hv
  constructor
  · intro h
    simp [eqLRUDict] at h
    exact ⟨h.1, hd.mp h.2⟩
  · intro h
    simp [eqLRUDict, h.1, hd.mpr h.2]

/-- C10 witness: `LRUCache(3, {a: 1})` compares equal to the plain mapping
`{a: 1}`. -/
theorem lru_eq_dict_iff_witness : eqLRUDict lru3 [(1, some 1)] = true :=
  (lru_eq_dict_iff lru3 [(1, some 1)] (by decide) (by decide)).mpr
    ⟨by decide, fun k => rfl⟩

end ClaimTheoremsTwo
